import Mathlib

/-!
# Verification of the implicit free-list allocator

A shallow embedding of `src/implicit_free _list.c`: a user-space allocator
over a single `mmap`-obtained arena.  Each block is preceded by a one-word
header packing the aligned payload size (high bits) with a free flag
(bit 0).  `myAlloc` performs a first-fit linear scan over the headers and
falls back to carving a fresh block at the bump pointer `heapEnd`;
`myFree` flips the free bit after a bounds check.

Machine integers (`size_t`, `uintptr_t`) are modelled as `Nat` with
explicit reduction mod `2^64` where the C arithmetic can wrap; addresses
are plain `Nat` (the null pointer is address `0`, `MAP_FAILED` is the
all-ones word).  Memory is a total function from addresses to the machine
word stored at that address; the allocator only ever reads and writes
whole header words.  The result of the `mmap` call is an oracle parameter
`mmapResult : Option Nat` (`none` models `MAP_FAILED`).
-/

set_option autoImplicit false

namespace ImplicitFreeList

/-- Width of `size_t` and `uintptr_t` on the 64-bit targets the source
selects with `ALIGNMENT 8`: values live below `UWORD = 2^64`. -/
def UWORD : Nat := 2 ^ 64

/-- The platform alignment chosen by the source on 64-bit targets. -/
def ALIGNMENT : Nat := 8

/-- `#define HEAP_SIZE (1 << 20)`. -/
def HEAP_SIZE : Nat := 1 <<< 20

/-- `sizeof(struct header)`: one `size_t` field on a 64-bit target. -/
def headerSize : Nat := 8

/-- The null pointer. -/
def NULLptr : Nat := 0

/-- `MAP_FAILED`, i.e. `(void *)-1` as an address. -/
def MAP_FAILED : Nat := UWORD - 1

/-- Error code `ERR_NONE`. -/
def ERR_NONE : Int := 0

/-- Error code `ERR_MMAP_FAILED`. -/
def ERR_MMAP_FAILED : Int := -1

/-- Error code `ERR_OUT_OF_MEM`. -/
def ERR_OUT_OF_MEM : Int := -2

/-- Error code `ERR_INVALID_FREE`. -/
def ERR_INVALID_FREE : Int := -3

/-- `#define ALIGN(s) (((uintptr_t)(s) + (ALIGNMENT - 1)) & ~(ALIGNMENT - 1))`:
the sum wraps mod `2^64` and `~(ALIGNMENT - 1)` is the 64-bit word
`2^64 - 8`. -/
def ALIGN (s : Nat) : Nat := ((s + (ALIGNMENT - 1)) % UWORD) &&& (UWORD - ALIGNMENT)

/-- `#define GET_SIZE(h) (h->meta_data & ~(size_t)1)`. -/
def GET_SIZE (m : Nat) : Nat := m &&& (UWORD - 2)

/-- `#define IS_FREE(h) (h->meta_data & 1)`, as the C truth value of
that word. -/
def IS_FREE (m : Nat) : Bool := m &&& 1 != 0

/-- `#define SET_SIZE(h, s) (h->meta_data = ((s) & ~(size_t)1) | (h->meta_data & 1))`:
the new word computed for the header. -/
def SET_SIZE (m s : Nat) : Nat := ((s % UWORD) &&& (UWORD - 2)) ||| (m &&& 1)

/-- `#define MARK_ALLOCATED(h) (h->meta_data &= ~(size_t)1)`: the new word. -/
def MARK_ALLOCATED (m : Nat) : Nat := m &&& (UWORD - 2)

/-- `#define MARK_FREE(h) (h->meta_data |= (size_t)1)`: the new word. -/
def MARK_FREE (m : Nat) : Nat := m ||| 1

/-- Update the word stored at address `a`. -/
def writeMem (mem : Nat → Nat) (a v : Nat) : Nat → Nat :=
  fun x => if x = a then v else mem x

/-- The mutable globals of the allocator: `heapStart`, `heapEnd`,
`heapMax` (addresses, `NULL = 0`), the header words stored in memory and
the global `last_error`. -/
structure AllocState where
  heapStart : Nat
  heapEnd : Nat
  heapMax : Nat
  mem : Nat → Nat
  last_error : Int

/-- The globals at process start: all three pointers are `NULL`, no
error, memory zeroed (the arena bytes come back zero-filled from
`MAP_ANONYMOUS` mmap, and the allocator never reads outside it). -/
def freshState : AllocState :=
  { heapStart := 0, heapEnd := 0, heapMax := 0, mem := fun _ => 0, last_error := ERR_NONE }

/-- The allocator state right after a successful first `mmap` returning
address `addr`: `heapStart = heapEnd = addr`, `heapMax = addr + HEAP_SIZE`. -/
def initArena (addr : Nat) : AllocState :=
  { heapStart := addr, heapEnd := addr, heapMax := addr + HEAP_SIZE,
    mem := fun _ => 0, last_error := ERR_NONE }

/-- The heap-initialisation path of `myAlloc` (lines 125-137): if
`heapStart` is still `NULL`, call `mmap`; on success set the three
globals, on failure `heapStart` keeps the returned `MAP_FAILED` value and
the call errors out (`Bool` component `true`).  If the heap already
exists nothing happens. -/
def initPath (mmapResult : Option Nat) (s : AllocState) : AllocState × Bool :=
  if s.heapStart = NULLptr then
    match mmapResult with
    | some addr =>
      ({ s with heapStart := addr, heapEnd := addr, heapMax := addr + HEAP_SIZE }, false)
    | none =>
      ({ s with heapStart := MAP_FAILED, last_error := ERR_MMAP_FAILED }, true)
  else (s, false)

/-- One execution of the first-fit scan loop of `myAlloc`
(lines 139-152), with explicit fuel; each iteration either returns the
current header address (free block large enough), steps the cursor by
`sizeof(struct header) + GET_SIZE(h)`, or stops at `heapEnd`. -/
def scanGo (mem : Nat → Nat) (e a : Nat) : Nat → Nat → Option Nat
  | 0, _ => none
  | fuel + 1, p =>
    if p < e then
      if IS_FREE (mem p) && a ≤ GET_SIZE (mem p) then some p
      else scanGo mem e a fuel (p + headerSize + GET_SIZE (mem p))
    else none

/-- The first-fit scan of `myAlloc`: the cursor advances by at least
`headerSize` per iteration, so `e - p + 1` iterations always suffice
(fuel irrelevance is proved below as the termination theorem). -/
def scanLoop (mem : Nat → Nat) (e a p : Nat) : Option Nat :=
  scanGo mem e a (e - p + 1) p

/-- Lines 139-169 of `myAlloc`, after alignment and heap initialisation:
first-fit scan, then carve a brand-new block at `heapEnd` if the scan
found nothing and the arena still has room. -/
def allocScanCarve (alignedSize : Nat) (s : AllocState) : Option Nat × AllocState :=
  match scanLoop s.mem s.heapEnd alignedSize s.heapStart with
  | some h =>
    (some (h + headerSize),
     { s with mem := writeMem s.mem h (MARK_ALLOCATED (s.mem h)) })
  | none =>
    if s.heapMax < s.heapEnd + headerSize + alignedSize then
      (none, { s with last_error := ERR_OUT_OF_MEM })
    else
      (some (s.heapEnd + headerSize),
       { s with
           mem := writeMem s.mem s.heapEnd (MARK_ALLOCATED (SET_SIZE (s.mem s.heapEnd) alignedSize)),
           heapEnd := s.heapEnd + headerSize + alignedSize })

/-- `void *myAlloc(size_t size)`.  Returns the payload pointer (`none`
is the `NULL` return) together with the new globals. -/
def myAlloc (mmapResult : Option Nat) (size : Nat) (s0 : AllocState) : Option Nat × AllocState :=
  let s := { s0 with last_error := ERR_NONE }
  if size % UWORD = 0 then
    (none, { s with last_error := ERR_OUT_OF_MEM })
  else
    match initPath mmapResult s with
    | (s1, true) => (none, s1)
    | (s1, false) => allocScanCarve (ALIGN size) s1

/-- `void myFree(void *p)`: no-op on `NULL`, bounds check against
`[heapStart + sizeof(struct header), heapEnd)`, then set the free bit of
the header one word before the payload. -/
def myFree (p : Nat) (s0 : AllocState) : AllocState :=
  let s := { s0 with last_error := ERR_NONE }
  if p = NULLptr then s
  else if p < s.heapStart + headerSize ∨ s.heapEnd ≤ p then
    { s with last_error := ERR_INVALID_FREE }
  else
    { s with mem := writeMem s.mem (p - headerSize) (MARK_FREE (s.mem (p - headerSize))) }

/-! ### Bit-level facts about the header codec -/

theorem and_mask_two_pow {x c k : Nat} (hx : x < 2 ^ c) (hk : k ≤ c) :
    x &&& (2 ^ c - 2 ^ k) = x - x % 2 ^ k := by
  have hmask : 2 ^ c - 2 ^ k = (2 ^ (c - k) - 1) <<< k := by
    rw [Nat.shiftLeft_eq, Nat.sub_mul, one_mul, ← pow_add]
    congr 2
    omega
  have hsub : x - x % 2 ^ k = (x >>> k) <<< k := by
    rw [Nat.shiftLeft_eq, Nat.shiftRight_eq_div_pow]
    have h1 := Nat.div_add_mod x (2 ^ k)
    have h2 : 2 ^ k * (x / 2 ^ k) = x / 2 ^ k * 2 ^ k := Nat.mul_comm _ _
    omega
  rw [hmask, hsub]
  apply Nat.eq_of_testBit_eq
  intro i
  rw [Nat.testBit_and, Nat.testBit_shiftLeft, Nat.testBit_shiftLeft,
    Nat.testBit_two_pow_sub_one, Nat.testBit_shiftRight]
  by_cases hki : k ≤ i
  · have hik : k + (i - k) = i := by omega
    rw [hik]
    by_cases hic : i < c
    · have : i - k < c - k := by omega
      simp [hki, this]
    · have hxi : x.testBit i = false :=
        Nat.testBit_lt_two_pow (lt_of_lt_of_le hx (Nat.pow_le_pow_right (by omega) (by omega)))
      simp [hxi]
  · simp [hki]

theorem GET_SIZE_eq {m : Nat} (hm : m < UWORD) : GET_SIZE m = m - m % 2 := by
  have h : UWORD - 2 = 2 ^ 64 - 2 ^ 1 := by norm_num [UWORD]
  have := and_mask_two_pow (x := m) (c := 64) (k := 1) hm (by omega)
  simpa [GET_SIZE, h] using this

theorem ALIGN_eq (n : Nat) :
    ALIGN n = (n + 7) % UWORD - (n + 7) % UWORD % 8 := by
  have h : UWORD - ALIGNMENT = 2 ^ 64 - 2 ^ 3 := by norm_num [UWORD, ALIGNMENT]
  have hlt : (n + 7) % UWORD < 2 ^ 64 := Nat.mod_lt _ (by norm_num [UWORD])
  have := and_mask_two_pow (x := (n + 7) % UWORD) (c := 64) (k := 3) hlt (by omega)
  simpa [ALIGN, ALIGNMENT, h] using this

theorem ALIGN_mod8 (n : Nat) : ALIGN n % 8 = 0 := by
  rw [ALIGN_eq]
  omega

theorem ALIGN_lt (n : Nat) : ALIGN n < UWORD := by
  have hlt : (n + 7) % UWORD < UWORD := Nat.mod_lt _ (by norm_num [UWORD])
  rw [ALIGN_eq]
  omega

theorem ALIGN_ge {n : Nat} (h2 : n ≤ UWORD - 8) : n ≤ ALIGN n := by
  have hU : (8:Nat) ≤ UWORD := by norm_num [UWORD]
  have hmod : (n + 7) % UWORD = n + 7 := Nat.mod_eq_of_lt (by omega)
  rw [ALIGN_eq, hmod]
  omega

theorem ALIGN_le {n : Nat} (h2 : n ≤ UWORD - 8) : ALIGN n ≤ n + 7 := by
  have hU : (8:Nat) ≤ UWORD := by norm_num [UWORD]
  have hmod : (n + 7) % UWORD = n + 7 := Nat.mod_eq_of_lt (by omega)
  rw [ALIGN_eq, hmod]
  omega

theorem GET_SIZE_lt (m : Nat) : GET_SIZE m < UWORD :=
  lt_of_le_of_lt Nat.and_le_right (by norm_num [UWORD])

theorem one_and_mask : 1 &&& (UWORD - 2) = 0 := by decide

theorem mask_and_one : (UWORD - 2) &&& 1 = 0 := by decide

theorem GET_SIZE_MARK_FREE (m : Nat) : GET_SIZE (MARK_FREE m) = GET_SIZE m := by
  unfold GET_SIZE MARK_FREE
  rw [Nat.and_distrib_right, one_and_mask, Nat.or_zero]

theorem GET_SIZE_MARK_ALLOCATED (m : Nat) :
    GET_SIZE (MARK_ALLOCATED m) = GET_SIZE m := by
  unfold GET_SIZE MARK_ALLOCATED
  rw [Nat.and_assoc, Nat.and_self]

theorem IS_FREE_MARK_FREE (m : Nat) : IS_FREE (MARK_FREE m) = true := by
  have h : MARK_FREE m % 2 = 1 := by
    unfold MARK_FREE
    simp
  simp [IS_FREE, Nat.and_one_is_mod, h]

theorem IS_FREE_MARK_ALLOCATED (m : Nat) : IS_FREE (MARK_ALLOCATED m) = false := by
  unfold IS_FREE MARK_ALLOCATED
  rw [Nat.and_assoc, mask_and_one, Nat.and_zero]
  simp

theorem IS_FREE_iff {m : Nat} : IS_FREE m = true ↔ m % 2 = 1 := by
  unfold IS_FREE
  rw [Nat.and_one_is_mod]
  simp only [bne_iff_ne, ne_eq]
  omega

theorem MARK_ALLOCATED_SET_SIZE (m a : Nat) :
    MARK_ALLOCATED (SET_SIZE m a) = (a % UWORD) &&& (UWORD - 2) := by
  unfold MARK_ALLOCATED SET_SIZE
  rw [Nat.and_distrib_right, Nat.and_assoc, Nat.and_self, Nat.and_assoc,
    one_and_mask, Nat.and_zero, Nat.or_zero]

theorem and_mask_of_aligned {a : Nat} (h8 : a % 8 = 0) (hU : a < UWORD) :
    a &&& (UWORD - 2) = a := by
  have h : UWORD - 2 = 2 ^ 64 - 2 ^ 1 := by norm_num [UWORD]
  have := and_mask_two_pow (x := a) (c := 64) (k := 1) hU (by omega)
  rw [h, this]
  omega

theorem GET_SIZE_of_aligned {a : Nat} (h8 : a % 8 = 0) (hU : a < UWORD) :
    GET_SIZE a = a := and_mask_of_aligned h8 hU

theorem MARK_FREE_lt {m : Nat} (hm : m < UWORD) : MARK_FREE m < UWORD :=
  Nat.or_lt_two_pow hm (by norm_num [UWORD])

theorem MARK_ALLOCATED_lt (m : Nat) : MARK_ALLOCATED m < UWORD :=
  GET_SIZE_lt m

theorem SET_SIZE_lt (m a : Nat) : SET_SIZE m a < UWORD := by
  apply Nat.or_lt_two_pow
  · exact lt_of_le_of_lt Nat.and_le_right (by norm_num [UWORD])
  · exact lt_of_le_of_lt Nat.and_le_right (by norm_num [UWORD])

/-! ### The header chain of an arena -/

/-- The header chain of the arena: starting at `p`, repeatedly stepping
by `headerSize + GET_SIZE` of the header word lands exactly on `e`, every
traversed header satisfying `P` of its stored size. -/
inductive Chain (P : Nat → Prop) (mem : Nat → Nat) (e : Nat) : Nat → Prop where
  | done {p : Nat} : p = e → Chain P mem e p
  | step {p q : Nat} : p < e → P (GET_SIZE (mem p)) →
      q = p + headerSize + GET_SIZE (mem p) → Chain P mem e q → Chain P mem e p

/-- Addresses reachable from `p` by header-chain steps in `mem`. -/
inductive Reaches (mem : Nat → Nat) : Nat → Nat → Prop where
  | refl {p : Nat} : Reaches mem p p
  | step {p q r : Nat} : q = p + headerSize + GET_SIZE (mem p) →
      Reaches mem q r → Reaches mem p r

theorem Chain.le_end {P : Nat → Prop} {mem : Nat → Nat} {e p : Nat}
    (h : Chain P mem e p) : p ≤ e := by
  cases h with
  | done hpe => omega
  | step hlt _ _ _ => omega

theorem Reaches.le {mem : Nat → Nat} {p r : Nat} (h : Reaches mem p r) : p ≤ r := by
  induction h with
  | refl => exact Nat.le_refl _
  | step hq _ ih =>
    have hh : headerSize = 8 := rfl
    omega

theorem Chain.congr {P : Nat → Prop} {mem mem' : Nat → Nat} {e p : Nat}
    (hg : ∀ x, GET_SIZE (mem' x) = GET_SIZE (mem x))
    (h : Chain P mem e p) : Chain P mem' e p := by
  induction h with
  | done hpe => exact Chain.done hpe
  | step hlt hP hq _ ih =>
    exact Chain.step hlt (by rw [hg]; exact hP) (by rw [hg]; exact hq) ih

theorem Chain.snoc {P : Nat → Prop} {mem : Nat → Nat} {e start : Nat} {v : Nat}
    (h : Chain P mem e start) (hP : P (GET_SIZE v)) :
    Chain P (writeMem mem e v) (e + headerSize + GET_SIZE v) start := by
  induction h with
  | done hpe =>
    rw [hpe]
    have hmem : writeMem mem e v e = v := by simp [writeMem]
    refine Chain.step ?_ ?_ ?_ (Chain.done rfl)
    · have hh : headerSize = 8 := rfl
      omega
    · rw [hmem]; exact hP
    · rw [hmem]
  | step hlt hP2 hq hc ih =>
    rename_i p q
    have hmem : writeMem mem e v p = mem p := by
      simp only [writeMem]
      rw [if_neg (by omega)]
    refine Chain.step ?_ ?_ ?_ ih
    · have hh : headerSize = 8 := rfl
      omega
    · rw [hmem]; exact hP2
    · rw [hmem]; exact hq

theorem Chain.mod_end {mem : Nat → Nat} {e p : Nat}
    (h : Chain (fun g => 8 ∣ g) mem e p) : e % 8 = p % 8 := by
  induction h with
  | done hpe => omega
  | step hlt hP hq _ ih =>
    have hh : headerSize = 8 := rfl
    omega

theorem Chain.of_reaches {P : Nat → Prop} {mem : Nat → Nat} {e p r : Nat}
    (hr : Reaches mem p r) : Chain P mem e p → r < e → Chain P mem e r := by
  induction hr with
  | refl => intro h _; exact h
  | step hq hrest ih =>
    intro h hre
    cases h with
    | done hpe =>
      exfalso
      have hle := hrest.le
      have hh : headerSize = 8 := rfl
      omega
    | step hlt hP hq2 hc =>
      exact ih (by rw [hq, ← hq2]; exact hc) hre

/-! ### Properties of the first-fit scan -/

theorem scanGo_some {mem : Nat → Nat} {e a : Nat} :
    ∀ fuel p q, scanGo mem e a fuel p = some q →
      IS_FREE (mem q) = true ∧ a ≤ GET_SIZE (mem q) ∧ p ≤ q ∧ q < e := by
  intro fuel
  induction fuel with
  | zero => intro p q h; simp [scanGo] at h
  | succ fuel ih =>
    intro p q h
    rw [scanGo] at h
    by_cases hpe : p < e
    · rw [if_pos hpe] at h
      by_cases hcond : (IS_FREE (mem p) && decide (a ≤ GET_SIZE (mem p))) = true
      · rw [if_pos hcond] at h
        cases h
        simp only [Bool.and_eq_true, decide_eq_true_eq] at hcond
        exact ⟨hcond.1, hcond.2, Nat.le_refl _, hpe⟩
      · rw [if_neg hcond] at h
        obtain ⟨h1, h2, h3, h4⟩ := ih _ _ h
        have hh : headerSize = 8 := rfl
        exact ⟨h1, h2, by omega, h4⟩
    · rw [if_neg hpe] at h
      cases h

theorem scanGo_fuel {mem : Nat → Nat} {e a : Nat} :
    ∀ f1 f2 p, e - p < f1 → e - p < f2 →
      scanGo mem e a f1 p = scanGo mem e a f2 p := by
  intro f1
  induction f1 with
  | zero => intro f2 p h1 _; omega
  | succ f1 ih =>
    intro f2 p h1 h2
    cases f2 with
    | zero => omega
    | succ f2 =>
      rw [scanGo, scanGo]
      by_cases hpe : p < e
      · rw [if_pos hpe, if_pos hpe]
        by_cases hcond : (IS_FREE (mem p) && decide (a ≤ GET_SIZE (mem p))) = true
        · rw [if_pos hcond, if_pos hcond]
        · rw [if_neg hcond, if_neg hcond]
          have hh : headerSize = 8 := rfl
          exact ih f2 _ (by omega) (by omega)
      · rw [if_neg hpe, if_neg hpe]

theorem scanLoop_stop {mem : Nat → Nat} {e a p : Nat} (h : ¬ p < e) :
    scanLoop mem e a p = none := by
  unfold scanLoop
  rw [scanGo, if_neg h]

theorem scanLoop_found {mem : Nat → Nat} {e a p : Nat} (h : p < e)
    (hc : (IS_FREE (mem p) && decide (a ≤ GET_SIZE (mem p))) = true) :
    scanLoop mem e a p = some p := by
  unfold scanLoop
  rw [scanGo, if_pos h, if_pos hc]

theorem scanLoop_next {mem : Nat → Nat} {e a p : Nat} (h : p < e)
    (hc : ¬ (IS_FREE (mem p) && decide (a ≤ GET_SIZE (mem p))) = true) :
    scanLoop mem e a p = scanLoop mem e a (p + headerSize + GET_SIZE (mem p)) := by
  unfold scanLoop
  rw [scanGo, if_pos h, if_neg hc]
  have hh : headerSize = 8 := rfl
  exact scanGo_fuel _ _ _ (by omega) (by omega)

theorem scanLoop_some {mem : Nat → Nat} {e a p q : Nat}
    (h : scanLoop mem e a p = some q) :
    IS_FREE (mem q) = true ∧ a ≤ GET_SIZE (mem q) ∧ p ≤ q ∧ q < e :=
  scanGo_some _ _ _ h

theorem scanLoop_some_chain {P : Nat → Prop} {mem : Nat → Nat} {e a p q : Nat}
    (hP8 : ∀ g, P g → 8 ∣ g) (hch : Chain P mem e p) :
    scanLoop mem e a p = some q → Chain P mem e q ∧ q % 8 = p % 8 := by
  induction hch with
  | done hpe =>
    intro h
    rw [hpe, scanLoop_stop (by omega)] at h
    exact Option.noConfusion h
  | step hlt hPg hq hc ih =>
    rename_i p' q'
    intro h
    by_cases hcond : (IS_FREE (mem p') && decide (a ≤ GET_SIZE (mem p'))) = true
    · rw [scanLoop_found hlt hcond] at h
      injection h with h
      subst h
      exact ⟨Chain.step hlt hPg hq hc, rfl⟩
    · rw [scanLoop_next hlt hcond, ← hq] at h
      obtain ⟨h1, h2⟩ := ih h
      refine ⟨h1, ?_⟩
      have hdvd := hP8 _ hPg
      have hh : headerSize = 8 := rfl
      omega

/-! ### The allocator invariant and reachable states -/

theorem GET_SIZE_carve (m n : Nat) :
    GET_SIZE (MARK_ALLOCATED (SET_SIZE m (ALIGN n))) = ALIGN n := by
  rw [MARK_ALLOCATED_SET_SIZE, Nat.mod_eq_of_lt (ALIGN_lt n)]
  unfold GET_SIZE
  rw [Nat.and_assoc, Nat.and_self]
  exact and_mask_of_aligned (ALIGN_mod8 n) (ALIGN_lt n)

theorem GET_SIZE_writeMem_free (mem : Nat → Nat) (a x : Nat) :
    GET_SIZE (writeMem mem a (MARK_FREE (mem a)) x) = GET_SIZE (mem x) := by
  unfold writeMem
  by_cases hx : x = a
  · subst hx
    simp [GET_SIZE_MARK_FREE]
  · simp [hx]

theorem GET_SIZE_writeMem_alloc (mem : Nat → Nat) (a x : Nat) :
    GET_SIZE (writeMem mem a (MARK_ALLOCATED (mem a)) x) = GET_SIZE (mem x) := by
  unfold writeMem
  by_cases hx : x = a
  · subst hx
    simp [GET_SIZE_MARK_ALLOCATED]
  · simp [hx]

/-- The invariant every allocator state reachable after a successful
`mmap` satisfies: the three arena pointers are consistent, memory words
fit in `size_t`, and the headers from `heapStart` chain exactly to
`heapEnd` with alignment-rounded stored sizes. -/
structure WF (s : AllocState) : Prop where
  startNZ : s.heapStart ≠ NULLptr
  maxEq : s.heapMax = s.heapStart + HEAP_SIZE
  startLe : s.heapStart ≤ s.heapEnd
  endLe : s.heapEnd ≤ s.heapMax
  maxLt : s.heapMax < UWORD
  memLt : ∀ a, s.mem a < UWORD
  chain : Chain (fun g => 8 ∣ g) s.mem s.heapEnd s.heapStart

/-- Complete case analysis of `myAlloc` on an initialised heap: the
zero-size rejection, first-fit reuse, out-of-memory, and carving a new
block at `heapEnd`. -/
theorem myAlloc_cases (s : AllocState) (hs : s.heapStart ≠ NULLptr)
    (mm : Option Nat) (n : Nat) :
    (n % UWORD = 0 ∧ myAlloc mm n s = (none, { s with last_error := ERR_OUT_OF_MEM })) ∨
    (n % UWORD ≠ 0 ∧ ∃ q, scanLoop s.mem s.heapEnd (ALIGN n) s.heapStart = some q ∧
       myAlloc mm n s = (some (q + headerSize),
         { s with last_error := ERR_NONE,
                  mem := writeMem s.mem q (MARK_ALLOCATED (s.mem q)) })) ∨
    (n % UWORD ≠ 0 ∧ scanLoop s.mem s.heapEnd (ALIGN n) s.heapStart = none ∧
       s.heapMax < s.heapEnd + headerSize + ALIGN n ∧
       myAlloc mm n s = (none, { s with last_error := ERR_OUT_OF_MEM })) ∨
    (n % UWORD ≠ 0 ∧ scanLoop s.mem s.heapEnd (ALIGN n) s.heapStart = none ∧
       ¬ s.heapMax < s.heapEnd + headerSize + ALIGN n ∧
       myAlloc mm n s = (some (s.heapEnd + headerSize),
         { s with last_error := ERR_NONE,
                  mem := writeMem s.mem s.heapEnd
                           (MARK_ALLOCATED (SET_SIZE (s.mem s.heapEnd) (ALIGN n))),
                  heapEnd := s.heapEnd + headerSize + ALIGN n })) := by
  by_cases h0 : n % UWORD = 0
  · left
    refine ⟨h0, ?_⟩
    unfold myAlloc
    rw [if_pos h0]
  · have hstep : myAlloc mm n s = allocScanCarve (ALIGN n) { s with last_error := ERR_NONE } := by
      unfold myAlloc initPath
      rw [if_neg h0, if_neg hs]
    rcases hscan : scanLoop s.mem s.heapEnd (ALIGN n) s.heapStart with _ | q
    · by_cases hroom : s.heapMax < s.heapEnd + headerSize + ALIGN n
      · right; right; left
        refine ⟨h0, rfl, hroom, ?_⟩
        rw [hstep]
        unfold allocScanCarve
        simp only [hscan, if_pos hroom]
      · right; right; right
        refine ⟨h0, rfl, hroom, ?_⟩
        rw [hstep]
        unfold allocScanCarve
        simp only [hscan, if_neg hroom]
    · right; left
      refine ⟨h0, q, rfl, ?_⟩
      rw [hstep]
      unfold allocScanCarve
      simp only [hscan]

theorem WF.alloc_pres {s : AllocState} (h : WF s) (mm : Option Nat) (n : Nat) :
    WF (myAlloc mm n s).2 := by
  rcases myAlloc_cases s h.startNZ mm n with
    ⟨h0, heq⟩ | ⟨h0, q, hscan, heq⟩ | ⟨h0, hscan, hroom, heq⟩ | ⟨h0, hscan, hroom, heq⟩
  · rw [heq]
    exact ⟨h.startNZ, h.maxEq, h.startLe, h.endLe, h.maxLt, h.memLt, h.chain⟩
  · rw [heq]
    refine ⟨h.startNZ, h.maxEq, h.startLe, h.endLe, h.maxLt, ?_, ?_⟩
    · intro a
      unfold writeMem
      by_cases ha : a = q
      · simp only [ha, if_pos rfl]
        exact MARK_ALLOCATED_lt _
      · simp only [if_neg ha]
        exact h.memLt a
    · exact Chain.congr (GET_SIZE_writeMem_alloc s.mem q) h.chain
  · rw [heq]
    exact ⟨h.startNZ, h.maxEq, h.startLe, h.endLe, h.maxLt, h.memLt, h.chain⟩
  · rw [heq]
    have hh : headerSize = 8 := rfl
    have hsz := GET_SIZE_carve (s.mem s.heapEnd) n
    refine ⟨h.startNZ, h.maxEq, by have := h.startLe; simp; omega, by simp; omega,
      h.maxLt, ?_, ?_⟩
    · intro a
      unfold writeMem
      by_cases ha : a = s.heapEnd
      · simp only [ha, if_pos rfl]
        exact MARK_ALLOCATED_lt _
      · simp only [if_neg ha]
        exact h.memLt a
    · have hch := Chain.snoc (v := MARK_ALLOCATED (SET_SIZE (s.mem s.heapEnd) (ALIGN n)))
        h.chain (by rw [hsz]; exact Nat.dvd_of_mod_eq_zero (ALIGN_mod8 n))
      rw [hsz] at hch
      exact hch

theorem WF.free_pres {s : AllocState} (h : WF s) (p : Nat) : WF (myFree p s) := by
  unfold myFree
  by_cases hp : p = NULLptr
  · rw [if_pos hp]
    exact ⟨h.startNZ, h.maxEq, h.startLe, h.endLe, h.maxLt, h.memLt, h.chain⟩
  · rw [if_neg hp]
    by_cases hb : p < s.heapStart + headerSize ∨ s.heapEnd ≤ p
    · rw [if_pos (by simpa using hb)]
      exact ⟨h.startNZ, h.maxEq, h.startLe, h.endLe, h.maxLt, h.memLt, h.chain⟩
    · rw [if_neg (by simpa using hb)]
      refine ⟨h.startNZ, h.maxEq, h.startLe, h.endLe, h.maxLt, ?_, ?_⟩
      · intro a
        simp only [writeMem]
        by_cases ha : a = p - headerSize
        · simp only [ha, if_pos rfl]
          exact MARK_FREE_lt (h.memLt _)
        · simp only [if_neg ha]
          exact h.memLt a
      · exact Chain.congr (GET_SIZE_writeMem_free s.mem (p - headerSize)) h.chain

/-- States reachable, through any sequence of `myAlloc` and `myFree`
calls, from the moment the arena has been successfully mapped at a
(nonzero, non-wrapping) address. -/
inductive Reachable : AllocState → Prop where
  | init {addr : Nat} : 0 < addr → addr + HEAP_SIZE < UWORD →
      Reachable (initArena addr)
  | alloc {s : AllocState} (mmapResult : Option Nat) (size : Nat) :
      Reachable s → Reachable (myAlloc mmapResult size s).2
  | free {s : AllocState} (p : Nat) : Reachable s → Reachable (myFree p s)

theorem Reachable.wf {s : AllocState} (h : Reachable s) : WF s := by
  induction h with
  | init haddr hlt =>
    exact ⟨by simpa [initArena, NULLptr] using haddr.ne', rfl,
      Nat.le_refl _, Nat.le_add_right _ _, hlt, fun _ => by norm_num [initArena, UWORD],
      Chain.done rfl⟩
  | alloc mm n _ ih => exact ih.alloc_pres mm n
  | free p _ ih => exact ih.free_pres p

/-! ### Evaluation lemmas for symbolic arena addresses -/

theorem myAlloc_unfold {s : AllocState} (hs : s.heapStart ≠ NULLptr) (mm : Option Nat)
    {n : Nat} (hn : n % UWORD ≠ 0) :
    myAlloc mm n s = allocScanCarve (ALIGN n) { s with last_error := ERR_NONE } := by
  unfold myAlloc initPath
  rw [if_neg hn, if_neg hs]

theorem myAlloc_fresh {n : Nat} (hn : n % UWORD ≠ 0) (addr : Nat) :
    myAlloc (some addr) n freshState = allocScanCarve (ALIGN n) (initArena addr) := by
  unfold myAlloc
  rw [if_neg hn]
  rfl

theorem allocScanCarve_reuse {a : Nat} {s : AllocState} {q : Nat}
    (hscan : scanLoop s.mem s.heapEnd a s.heapStart = some q) :
    allocScanCarve a s = (some (q + headerSize),
      { s with mem := writeMem s.mem q (MARK_ALLOCATED (s.mem q)) }) := by
  unfold allocScanCarve
  simp only [hscan]

theorem allocScanCarve_carve {a : Nat} {s : AllocState}
    (hscan : scanLoop s.mem s.heapEnd a s.heapStart = none)
    (hroom : ¬ s.heapMax < s.heapEnd + headerSize + a) :
    allocScanCarve a s = (some (s.heapEnd + headerSize),
      { s with
          mem := writeMem s.mem s.heapEnd (MARK_ALLOCATED (SET_SIZE (s.mem s.heapEnd) a)),
          heapEnd := s.heapEnd + headerSize + a }) := by
  unfold allocScanCarve
  simp only [hscan, if_neg hroom]

/-! ### C4: zero-size rejection -/

/-- C4: every call `allocate(0)` fails, returns `NULL` with the error
code `OUT_OF_MEMORY`, and performs no arena mutation: `heapStart`,
`heapEnd`, `heapMax` and every stored header word are unchanged. -/
theorem C4_zero_size_rejection (mm : Option Nat) (s : AllocState) :
    (myAlloc mm 0 s).1 = none ∧
    (myAlloc mm 0 s).2.last_error = ERR_OUT_OF_MEM ∧
    (myAlloc mm 0 s).2.heapStart = s.heapStart ∧
    (myAlloc mm 0 s).2.heapEnd = s.heapEnd ∧
    (myAlloc mm 0 s).2.heapMax = s.heapMax ∧
    (myAlloc mm 0 s).2.mem = s.mem :=
  ⟨rfl, rfl, rfl, rfl, rfl, rfl⟩

/-! ### C5: out-of-bounds free rejection -/

/-- C5: `free(p)` on a non-null pointer below `heapStart + header_size`
or at or beyond the current `heapEnd` records `INVALID_FREE` and leaves
the whole arena, in particular every header word, unmodified. -/
theorem C5_invalid_free_bounds (s : AllocState) (p : Nat) (hp : p ≠ NULLptr)
    (hb : p < s.heapStart + headerSize ∨ s.heapEnd ≤ p) :
    myFree p s = { s with last_error := ERR_INVALID_FREE } ∧
    (myFree p s).mem = s.mem := by
  have h : myFree p s = { s with last_error := ERR_INVALID_FREE } := by
    unfold myFree
    rw [if_neg hp, if_pos hb]
  exact ⟨h, by rw [h]⟩

/-- Witness for C5 at a concrete state: freeing pointer `4`, which is
below `heapStart + header_size = 16` of a freshly mapped arena at `8`. -/
theorem C5_invalid_free_bounds_witness :
    myFree 4 (initArena 8) = { initArena 8 with last_error := ERR_INVALID_FREE } ∧
    (myFree 4 (initArena 8)).mem = (initArena 8).mem :=
  C5_invalid_free_bounds (initArena 8) 4 (by decide) (Or.inl (by decide))

/-! ### C6: free(null) -/

/-- A state with a pending error status, as left by a failed allocation. -/
def c6state : AllocState := { initArena 8 with last_error := ERR_OUT_OF_MEM }

/-- C6 as stated is false on the code: `myFree(NULL)` overwrites the
global `last_error` with `ERR_NONE` on entry, so a prior error status is
not left unchanged by the call. -/
theorem C6_null_free_counterexample :
    (myFree NULLptr c6state).last_error ≠ c6state.last_error := by decide

/-- C6 amended: `free(null)` always succeeds and mutates no arena state
— `heapStart`, `heapEnd`, `heapMax` and all headers are unchanged — but
the last-error status is overwritten with `NONE`, as at the start of
every call. -/
theorem C6_null_free_noop (s : AllocState) :
    myFree NULLptr s = { s with last_error := ERR_NONE } := rfl

/-! ### C9: idempotent initialisation -/

/-- C9: if the arena already exists when `myAlloc` runs the
initialisation path, nothing is remapped and no arena field is reset;
and running the initialisation path again after a successful run has no
effect. -/
theorem C9_idempotent_init (s : AllocState) (mm mm2 : Option Nat) (addr : Nat) :
    (s.heapStart ≠ NULLptr → initPath mm s = (s, false)) ∧
    (addr ≠ NULLptr →
      initPath mm2 (initPath (some addr) s).1 = ((initPath (some addr) s).1, false)) := by
  constructor
  · intro h
    unfold initPath
    rw [if_neg h]
  · intro ha
    by_cases h0 : s.heapStart = NULLptr
    · have h1 : initPath (some addr) s =
          ({ s with heapStart := addr, heapEnd := addr, heapMax := addr + HEAP_SIZE },
           false) := by
        unfold initPath
        rw [if_pos h0]
      rw [h1]
      unfold initPath
      simp only []
      rw [if_neg ha]
    · have h1 : initPath (some addr) s = (s, false) := by
        unfold initPath
        rw [if_neg h0]
      rw [h1]
      unfold initPath
      simp only []
      rw [if_neg h0]

/-- Witness for C9: an already-mapped arena at `8` is untouched by the
initialisation path, and a first successful run at `8` from the fresh
process state is not redone. -/
theorem C9_idempotent_init_witness :
    initPath none (initArena 8) = (initArena 8, false) ∧
    initPath none (initPath (some 8) freshState).1 =
      ((initPath (some 8) freshState).1, false) :=
  ⟨(C9_idempotent_init (initArena 8) none none 8).1 (by decide),
   (C9_idempotent_init freshState none none 8).2 (by decide)⟩

/-! ### C3: arena bounds invariant -/

/-- C3: in every reachable post-initialisation state
`heapStart ≤ heapEnd ≤ heapMax` holds; `free` never moves `heapEnd`;
`myAlloc` never decreases `heapEnd`, never pushes it past `heapMax`,
leaves it unchanged whenever the first-fit scan found a reusable block,
and whenever it does move `heapEnd` the call carved a brand-new block at
the old end (scan failed, pointer at old `heapEnd + headerSize`). -/
theorem C3_arena_bounds (s : AllocState) (h : Reachable s) :
    (s.heapStart ≤ s.heapEnd ∧ s.heapEnd ≤ s.heapMax) ∧
    (∀ p, (myFree p s).heapEnd = s.heapEnd) ∧
    (∀ mm n,
      s.heapEnd ≤ (myAlloc mm n s).2.heapEnd ∧
      (myAlloc mm n s).2.heapEnd ≤ s.heapMax ∧
      (myAlloc mm n s).2.heapMax = s.heapMax ∧
      (∀ q, scanLoop s.mem s.heapEnd (ALIGN n) s.heapStart = some q →
        (myAlloc mm n s).2.heapEnd = s.heapEnd) ∧
      ((myAlloc mm n s).2.heapEnd ≠ s.heapEnd →
        (myAlloc mm n s).1 = some (s.heapEnd + headerSize) ∧
        (myAlloc mm n s).2.heapEnd = s.heapEnd + headerSize + ALIGN n ∧
        scanLoop s.mem s.heapEnd (ALIGN n) s.heapStart = none)) := by
  have hW := h.wf
  refine ⟨⟨hW.startLe, hW.endLe⟩, ?_, ?_⟩
  · intro p
    unfold myFree
    by_cases hp : p = NULLptr
    · rw [if_pos hp]
    · rw [if_neg hp]
      by_cases hb : p < s.heapStart + headerSize ∨ s.heapEnd ≤ p
      · rw [if_pos hb]
      · rw [if_neg hb]
  · intro mm n
    rcases myAlloc_cases s hW.startNZ mm n with
      ⟨h0, heq⟩ | ⟨h0, q, hscan, heq⟩ | ⟨h0, hscan, hroom, heq⟩ | ⟨h0, hscan, hroom, heq⟩
    · rw [heq]
      exact ⟨Nat.le_refl _, hW.endLe, rfl, fun _ _ => rfl, fun hne => absurd rfl hne⟩
    · rw [heq]
      exact ⟨Nat.le_refl _, hW.endLe, rfl, fun _ _ => rfl, fun hne => absurd rfl hne⟩
    · rw [heq]
      exact ⟨Nat.le_refl _, hW.endLe, rfl, fun _ _ => rfl, fun hne => absurd rfl hne⟩
    · rw [heq]
      refine ⟨?_, ?_, rfl, ?_, ?_⟩
      · show s.heapEnd ≤ s.heapEnd + headerSize + ALIGN n
        omega
      · show s.heapEnd + headerSize + ALIGN n ≤ s.heapMax
        omega
      · intro q hq
        rw [hscan] at hq
        exact Option.noConfusion hq
      · intro _
        exact ⟨rfl, rfl, hscan⟩

/-- Witness for C3 at the concrete freshly mapped arena at address `8`. -/
theorem C3_arena_bounds_witness :
    (initArena 8).heapStart ≤ (initArena 8).heapEnd ∧
    (initArena 8).heapEnd ≤ (initArena 8).heapMax :=
  (C3_arena_bounds (initArena 8) (Reachable.init (by decide) (by decide))).1

/-! ### C2: alignment postcondition -/

/-- A reachable state holding one free block of stored size `8`: the
arena is mapped at `8`, one 8-byte block was allocated at payload `16`
and then freed. -/
def c2state : AllocState := myFree 16 (myAlloc none 8 (initArena 8)).2

/-- C2 as stated is false on the code: for the request `n = 2^64 - 1`
(a positive `size_t` value) the alignment rounding wraps to `0`, so in a
reachable state holding a free 8-byte block the allocation succeeds and
the stored payload size `8` is smaller than `n`. -/
theorem C2_alignment_counterexample :
    0 < UWORD - 1 ∧
    (myAlloc none (UWORD - 1) c2state).1 = some 16 ∧
    GET_SIZE ((myAlloc none (UWORD - 1) c2state).2.mem 8) = 8 ∧
    ¬ (UWORD - 1 ≤ GET_SIZE ((myAlloc none (UWORD - 1) c2state).2.mem 8)) := by decide

/-- C2 amended: for every successful `allocate(n)` in a reachable state
with `0 < n` and `n ≤ 2^64 - 8` (so the alignment rounding does not wrap
around the machine word), the returned payload pointer minus `heapStart`
is a multiple of the platform alignment `8`, and the payload size stored
in the header of the returned block is at least `n` and itself a
multiple of the alignment. -/
theorem C2_alignment_postcondition (s : AllocState) (h : Reachable s)
    (mm : Option Nat) (n : Nat) (hn : 0 < n) (hn8 : n ≤ UWORD - 8)
    (ptr : Nat) (hsucc : (myAlloc mm n s).1 = some ptr) :
    s.heapStart ≤ ptr ∧
    (ptr - s.heapStart) % ALIGNMENT = 0 ∧
    n ≤ GET_SIZE ((myAlloc mm n s).2.mem (ptr - headerSize)) ∧
    GET_SIZE ((myAlloc mm n s).2.mem (ptr - headerSize)) % ALIGNMENT = 0 := by
  have hW := h.wf
  have hU : (16:Nat) ≤ UWORD := by norm_num [UWORD]
  have hn0 : n % UWORD ≠ 0 := by
    rw [Nat.mod_eq_of_lt (by omega)]
    omega
  have hA : ALIGNMENT = 8 := rfl
  have hh : headerSize = 8 := rfl
  have halign := ALIGN_ge hn8
  have halign8 := ALIGN_mod8 n
  rcases myAlloc_cases s hW.startNZ mm n with
    ⟨h0, _⟩ | ⟨h0, q, hscan, heq⟩ | ⟨h0, hscan, hroom, heq⟩ | ⟨h0, hscan, hroom, heq⟩
  · exact absurd h0 hn0
  · obtain ⟨hfree, hsize, hstq, hqe⟩ := scanLoop_some hscan
    obtain ⟨hchq, hqmod⟩ := scanLoop_some_chain (fun g hg => hg) hW.chain hscan
    have hdvd : 8 ∣ GET_SIZE (s.mem q) := by
      cases hchq with
      | done hqee => omega
      | step _ hP _ _ => exact hP
    have hptr : ptr = q + headerSize := by
      rw [heq] at hsucc
      simpa using hsucc.symm
    have hmem : (myAlloc mm n s).2.mem = writeMem s.mem q (MARK_ALLOCATED (s.mem q)) := by
      rw [heq]
    have hq8 : ptr - headerSize = q := by omega
    have hval : (myAlloc mm n s).2.mem (ptr - headerSize) = MARK_ALLOCATED (s.mem q) := by
      rw [hmem, hq8]
      simp [writeMem]
    rw [hval, GET_SIZE_MARK_ALLOCATED]
    refine ⟨by omega, by rw [hA]; omega, by omega, by rw [hA]; omega⟩
  · rw [heq] at hsucc
    exact Option.noConfusion hsucc
  · have hemod : s.heapEnd % 8 = s.heapStart % 8 := Chain.mod_end hW.chain
    have hstle := hW.startLe
    have hptr : ptr = s.heapEnd + headerSize := by
      rw [heq] at hsucc
      simpa using hsucc.symm
    have hmem : (myAlloc mm n s).2.mem =
        writeMem s.mem s.heapEnd (MARK_ALLOCATED (SET_SIZE (s.mem s.heapEnd) (ALIGN n))) := by
      rw [heq]
    have hq8 : ptr - headerSize = s.heapEnd := by omega
    have hval : (myAlloc mm n s).2.mem (ptr - headerSize) =
        MARK_ALLOCATED (SET_SIZE (s.mem s.heapEnd) (ALIGN n)) := by
      rw [hmem, hq8]
      simp [writeMem]
    rw [hval, GET_SIZE_carve]
    refine ⟨by omega, by rw [hA]; omega, by omega, by rw [hA]; omega⟩

/-- Witness for C2 at the freshly mapped arena at `8`: `allocate(4)`
returns payload `16`, offset `8` from `heapStart`, with stored size `8`. -/
theorem C2_alignment_postcondition_witness :
    (initArena 8).heapStart ≤ 16 ∧
    (16 - (initArena 8).heapStart) % ALIGNMENT = 0 ∧
    4 ≤ GET_SIZE ((myAlloc none 4 (initArena 8)).2.mem (16 - headerSize)) ∧
    GET_SIZE ((myAlloc none 4 (initArena 8)).2.mem (16 - headerSize)) % ALIGNMENT = 0 :=
  C2_alignment_postcondition (initArena 8) (Reachable.init (by decide) (by decide))
    none 4 (by decide) (by decide) 16 (by decide)

/-! ### C10: error atomicity of allocate -/

/-- C10 fails on the code: when the very first allocation's `mmap` call
fails, `myAlloc` returns the `MMAP_FAILED` error but leaves
`heapStart = MAP_FAILED` instead of restoring the prior `NULL`, so the
arena state is mutated on an error return (and every later call skips
initialisation, seeing a nonnull `heapStart`). -/
theorem C10_mmap_failure_mutates_arena :
    freshState.heapStart = NULLptr ∧
    (myAlloc none 4 freshState).1 = none ∧
    (myAlloc none 4 freshState).2.last_error = ERR_MMAP_FAILED ∧
    (myAlloc none 4 freshState).2.heapStart = MAP_FAILED ∧
    (myAlloc none 4 freshState).2.heapStart ≠ freshState.heapStart := by decide

/-! ### C1: first-fit reuse -/

/-- The arena after `allocate(4)` from a fresh process, mapped at `addr`:
one allocated block, header word `8` at `addr`. -/
def c1s1 (addr : Nat) : AllocState :=
  { heapStart := addr, heapEnd := addr + 16, heapMax := addr + HEAP_SIZE,
    mem := writeMem (fun _ => 0) addr 8, last_error := ERR_NONE }

/-- The arena after the further `allocate(1000)`: a second allocated
block, header word `1000` at `addr + 16`. -/
def c1s2 (addr : Nat) : AllocState :=
  { heapStart := addr, heapEnd := addr + 1024, heapMax := addr + HEAP_SIZE,
    mem := writeMem (writeMem (fun _ => 0) addr 8) (addr + 16) 1000,
    last_error := ERR_NONE }

/-- The arena after `free(A)`: the first header is free (`9`). -/
def c1s3 (addr : Nat) : AllocState :=
  { heapStart := addr, heapEnd := addr + 1024, heapMax := addr + HEAP_SIZE,
    mem := writeMem (writeMem (writeMem (fun _ => 0) addr 8) (addr + 16) 1000) addr 9,
    last_error := ERR_NONE }

/-- The arena after the reusing `allocate(4)`: the first header is
allocated again (`8`), everything else untouched. -/
def c1s4 (addr : Nat) : AllocState :=
  { heapStart := addr, heapEnd := addr + 1024, heapMax := addr + HEAP_SIZE,
    mem := writeMem (writeMem (writeMem (writeMem (fun _ => 0) addr 8) (addr + 16) 1000) addr 9)
             addr 8,
    last_error := ERR_NONE }

theorem c1step1 (addr : Nat) :
    myAlloc (some addr) 4 freshState = (some (addr + 8), c1s1 addr) := by
  have hh : headerSize = 8 := rfl
  have hHS : HEAP_SIZE = 1048576 := by decide
  rw [myAlloc_fresh (by decide) addr, show ALIGN 4 = 8 from by decide]
  rw [allocScanCarve_carve (scanLoop_stop (show ¬ addr < addr by omega))
    (show ¬ (initArena addr).heapMax < (initArena addr).heapEnd + headerSize + 8 by
      show ¬ addr + HEAP_SIZE < addr + 8 + 8
      omega)]
  dsimp only [initArena]
  rw [show SET_SIZE 0 8 = 8 from by decide, show MARK_ALLOCATED 8 = 8 from by decide]
  rfl

theorem c1step2 (addr : Nat) (h1 : 0 < addr) (mm2 : Option Nat) :
    myAlloc mm2 1000 (c1s1 addr) = (some (addr + 24), c1s2 addr) := by
  have hh : headerSize = 8 := rfl
  have hHS : HEAP_SIZE = 1048576 := by decide
  have hm1 : writeMem (fun _ => 0) addr 8 addr = 8 := by simp [writeMem]
  have hscan : scanLoop (c1s1 addr).mem (c1s1 addr).heapEnd 1000 (c1s1 addr).heapStart
      = none := by
    dsimp only [c1s1]
    rw [scanLoop_next (by omega) (by rw [hm1]; decide)]
    rw [hm1, show GET_SIZE 8 = 8 from by decide]
    exact scanLoop_stop (by omega)
  rw [myAlloc_unfold (show (c1s1 addr).heapStart ≠ NULLptr from by show addr ≠ 0; omega)
        mm2 (by decide),
      show ALIGN 1000 = 1000 from by decide]
  show allocScanCarve 1000 (c1s1 addr) = (some (addr + 24), c1s2 addr)
  rw [allocScanCarve_carve hscan
        (show ¬ (c1s1 addr).heapMax < (c1s1 addr).heapEnd + headerSize + 1000 from by
          show ¬ addr + HEAP_SIZE < addr + 16 + headerSize + 1000
          omega)]
  dsimp only [c1s1]
  rw [MARK_ALLOCATED_SET_SIZE,
    show (1000 % UWORD) &&& (UWORD - 2) = 1000 from by decide]
  rfl

theorem c1step3 (addr : Nat) (h1 : 0 < addr) :
    myFree (addr + 8) (c1s2 addr) = c1s3 addr := by
  have hh : headerSize = 8 := rfl
  unfold myFree
  rw [if_neg (show ¬ addr + 8 = NULLptr from by show ¬ addr + 8 = 0; omega)]
  rw [if_neg (show ¬ (addr + 8 < (c1s2 addr).heapStart + headerSize ∨
        (c1s2 addr).heapEnd ≤ addr + 8) from by
      show ¬ (addr + 8 < addr + headerSize ∨ addr + 1024 ≤ addr + 8)
      omega)]
  dsimp only [c1s2]
  rw [show addr + 8 - headerSize = addr from by omega]
  have hm2 : writeMem (writeMem (fun _ => 0) addr 8) (addr + 16) 1000 addr = 8 := by
    simp [writeMem]
  rw [hm2, show MARK_FREE 8 = 9 from by decide]
  rfl

theorem c1step4 (addr : Nat) (h1 : 0 < addr) (mm3 : Option Nat) :
    myAlloc mm3 4 (c1s3 addr) = (some (addr + 8), c1s4 addr) := by
  have hh : headerSize = 8 := rfl
  have hm3 : writeMem (writeMem (writeMem (fun _ => 0) addr 8) (addr + 16) 1000) addr 9 addr
      = 9 := by
    simp [writeMem]
  have hscan : scanLoop (c1s3 addr).mem (c1s3 addr).heapEnd 8 (c1s3 addr).heapStart
      = some addr := by
    dsimp only [c1s3]
    exact scanLoop_found (by omega) (by rw [hm3]; decide)
  rw [myAlloc_unfold (show (c1s3 addr).heapStart ≠ NULLptr from by show ¬ addr = 0; omega)
        mm3 (by decide),
      show ALIGN 4 = 8 from by decide]
  show allocScanCarve 8 (c1s3 addr) = (some (addr + 8), c1s4 addr)
  rw [allocScanCarve_reuse hscan]
  dsimp only [c1s3]
  rw [hm3, show MARK_ALLOCATED 9 = 8 from by decide]
  rfl

/-- C1: from a fresh process with the arena mapped at any valid address
`addr`, the sequence allocate(4) = A, allocate(1000) = B, free(A),
allocate(4) = C gives A = addr + 8, B = addr + 24, C = A (the freed slot
is reused: `heapEnd` does not move), and every payload word of block B
(addresses `addr + 24` up to `addr + 1024`) is unchanged by the
allocation of C. -/
theorem C1_first_fit_reuse (addr : Nat) (h1 : 0 < addr) (_h2 : addr + HEAP_SIZE < UWORD)
    (mm2 mm3 : Option Nat) :
    (myAlloc (some addr) 4 freshState).1 = some (addr + 8) ∧
    (myAlloc mm2 1000 (myAlloc (some addr) 4 freshState).2).1 = some (addr + 24) ∧
    (myAlloc mm3 4 (myFree (addr + 8)
        (myAlloc mm2 1000 (myAlloc (some addr) 4 freshState).2).2)).1 = some (addr + 8) ∧
    (myAlloc mm3 4 (myFree (addr + 8)
        (myAlloc mm2 1000 (myAlloc (some addr) 4 freshState).2).2)).2.heapEnd
      = (myFree (addr + 8) (myAlloc mm2 1000 (myAlloc (some addr) 4 freshState).2).2).heapEnd ∧
    (∀ i, addr + 24 ≤ i → i < addr + 1024 →
      (myAlloc mm3 4 (myFree (addr + 8)
          (myAlloc mm2 1000 (myAlloc (some addr) 4 freshState).2).2)).2.mem i
        = (myFree (addr + 8)
            (myAlloc mm2 1000 (myAlloc (some addr) 4 freshState).2).2).mem i) := by
  rw [c1step1 addr]
  dsimp only
  rw [c1step2 addr h1 mm2]
  dsimp only
  rw [c1step3 addr h1]
  rw [c1step4 addr h1 mm3]
  dsimp only
  refine ⟨rfl, rfl, rfl, rfl, ?_⟩
  intro i hi1 hi2
  dsimp only [c1s4, c1s3]
  simp only [writeMem]
  rw [if_neg (show ¬ i = addr from by omega)]

/-- Witness for C1 at the concrete mmap address `8`. -/
theorem C1_first_fit_reuse_witness :
    (myAlloc (some 8) 4 freshState).1 = some 16 ∧
    (myAlloc none 1000 (myAlloc (some 8) 4 freshState).2).1 = some 32 ∧
    (myAlloc none 4 (myFree 16
        (myAlloc none 1000 (myAlloc (some 8) 4 freshState).2).2)).1 = some 16 ∧
    (myAlloc none 4 (myFree 16
        (myAlloc none 1000 (myAlloc (some 8) 4 freshState).2).2)).2.heapEnd
      = (myFree 16 (myAlloc none 1000 (myAlloc (some 8) 4 freshState).2).2).heapEnd ∧
    (∀ i, 32 ≤ i → i < 1032 →
      (myAlloc none 4 (myFree 16
          (myAlloc none 1000 (myAlloc (some 8) 4 freshState).2).2)).2.mem i
        = (myFree 16 (myAlloc none 1000 (myAlloc (some 8) 4 freshState).2).2).mem i) :=
  C1_first_fit_reuse 8 (by decide) (by decide) none none

/-! ### C7: no coalescing -/

/-- A reachable arena whose space is fully carved into three blocks:
two 8-byte blocks and one final block filling the arena exactly, with
the first two blocks then freed.  Blocks 1 and 2 (headers at `8` and
`24`) are physically adjacent free blocks of stored sizes 8 and 8, and
there is no room left to carve. -/
def c7state : AllocState :=
  myFree 32 (myFree 16
    (myAlloc none (HEAP_SIZE - 40) (myAlloc none 8 (myAlloc none 8 (initArena 8)).2).2).2)

/-- C7 as stated is false on the code when the arena is exhausted: with
two physically adjacent free blocks of sizes 8 and 8 and no other free
space, `allocate(8 + 8)` neither reuses any single free block nor
carves a new block at `heapEnd` — it fails with `OUT_OF_MEMORY`. -/
theorem C7_no_coalescing_counterexample :
    IS_FREE (c7state.mem 8) = true ∧ GET_SIZE (c7state.mem 8) = 8 ∧
    IS_FREE (c7state.mem 24) = true ∧ GET_SIZE (c7state.mem 24) = 8 ∧
    (24 : Nat) = 8 + headerSize + 8 ∧
    (myAlloc none 16 c7state).1 = none ∧
    (myAlloc none 16 c7state).2.last_error = ERR_OUT_OF_MEM ∧
    (myAlloc none 16 c7state).2.heapEnd = c7state.heapEnd := by decide

/-- C7 amended: in any reachable state containing two physically
adjacent free blocks of positive stored sizes `S1` and `S2` (headers at
`p1` and `p1 + headerSize + S1`), `allocate(S1 + S2)` never returns the
payload pointer of either block — the combined contiguous span is never
reused; instead the call either reuses some other single free block
whose stored size is at least the aligned request, or carves a
brand-new block at `heapEnd`, or fails with `OUT_OF_MEMORY` when the
arena lacks room for a new block. -/
theorem C7_no_coalescing (s : AllocState) (h : Reachable s) (mm : Option Nat)
    (p1 S1 S2 : Nat)
    (hreach : Reaches s.mem s.heapStart p1)
    (hp1e : p1 < s.heapEnd)
    (hS1 : GET_SIZE (s.mem p1) = S1) (_hf1 : IS_FREE (s.mem p1) = true) (hS1pos : 0 < S1)
    (hp2e : p1 + headerSize + S1 < s.heapEnd)
    (hS2 : GET_SIZE (s.mem (p1 + headerSize + S1)) = S2)
    (_hf2 : IS_FREE (s.mem (p1 + headerSize + S1)) = true) (hS2pos : 0 < S2) :
    (myAlloc mm (S1 + S2) s).1 ≠ some (p1 + headerSize) ∧
    (myAlloc mm (S1 + S2) s).1 ≠ some (p1 + headerSize + S1 + headerSize) ∧
    ((∃ q, scanLoop s.mem s.heapEnd (ALIGN (S1 + S2)) s.heapStart = some q ∧
        q ≠ p1 ∧ q ≠ p1 + headerSize + S1 ∧
        ALIGN (S1 + S2) ≤ GET_SIZE (s.mem q) ∧
        (myAlloc mm (S1 + S2) s).1 = some (q + headerSize)) ∨
     (scanLoop s.mem s.heapEnd (ALIGN (S1 + S2)) s.heapStart = none ∧
       (((myAlloc mm (S1 + S2) s).1 = some (s.heapEnd + headerSize) ∧
         (myAlloc mm (S1 + S2) s).2.heapEnd = s.heapEnd + headerSize + ALIGN (S1 + S2)) ∨
        ((myAlloc mm (S1 + S2) s).1 = none ∧
         (myAlloc mm (S1 + S2) s).2.last_error = ERR_OUT_OF_MEM)))) := by
  have hW := h.wf
  have hh : headerSize = 8 := rfl
  have hHS : HEAP_SIZE = 1048576 := by decide
  have h8U : (8:Nat) ≤ UWORD := by decide
  have hU8 : HEAP_SIZE ≤ UWORD - 8 := by decide
  have hch1 : Chain (fun g => 8 ∣ g) s.mem s.heapEnd p1 :=
    Chain.of_reaches hreach hW.chain hp1e
  have hch2 : Chain (fun g => 8 ∣ g) s.mem s.heapEnd (p1 + headerSize + S1) := by
    cases hch1 with
    | done hpe => omega
    | step hlt hP hq hc =>
      subst hq
      rw [← hS1]
      exact hc
  have hbound : p1 + headerSize + S1 + headerSize + S2 ≤ s.heapEnd := by
    cases hch2 with
    | done hpe => omega
    | step hlt hP hq hc =>
      have hle := Chain.le_end hc
      omega
  have hstart := hreach.le
  have hmax := hW.maxEq
  have hendle := hW.endLe
  have hSbound : S1 + S2 ≤ UWORD - 8 := by omega
  have halign : S1 + S2 ≤ ALIGN (S1 + S2) := ALIGN_ge hSbound
  have hn0 : (S1 + S2) % UWORD ≠ 0 := by
    rw [Nat.mod_eq_of_lt (by omega)]
    omega
  rcases myAlloc_cases s hW.startNZ mm (S1 + S2) with
    ⟨h0, _⟩ | ⟨h0, q, hscan, heq⟩ | ⟨h0, hscan, hroom, heq⟩ | ⟨h0, hscan, hroom, heq⟩
  · exact absurd h0 hn0
  · obtain ⟨hfree, hsize, hstq, hqe⟩ := scanLoop_some hscan
    have hq1 : q ≠ p1 := by
      intro hqp
      rw [hqp, hS1] at hsize
      omega
    have hq2 : q ≠ p1 + headerSize + S1 := by
      intro hqp
      rw [hqp, hS2] at hsize
      omega
    refine ⟨?_, ?_, Or.inl ⟨q, hscan, hq1, hq2, hsize, ?_⟩⟩
    · rw [heq]
      show ¬ some (q + headerSize) = some (p1 + headerSize)
      intro hc
      rw [Option.some.injEq] at hc
      omega
    · rw [heq]
      show ¬ some (q + headerSize) = some (p1 + headerSize + S1 + headerSize)
      intro hc
      rw [Option.some.injEq] at hc
      omega
    · rw [heq]
  · refine ⟨?_, ?_, Or.inr ⟨hscan, Or.inr ⟨?_, ?_⟩⟩⟩
    · rw [heq]
      show ¬ (none : Option Nat) = some (p1 + headerSize)
      exact fun hc => Option.noConfusion hc
    · rw [heq]
      show ¬ (none : Option Nat) = some (p1 + headerSize + S1 + headerSize)
      exact fun hc => Option.noConfusion hc
    · rw [heq]
    · rw [heq]
  · refine ⟨?_, ?_, Or.inr ⟨hscan, Or.inl ⟨?_, ?_⟩⟩⟩
    · rw [heq]
      show ¬ some (s.heapEnd + headerSize) = some (p1 + headerSize)
      intro hc
      rw [Option.some.injEq] at hc
      omega
    · rw [heq]
      show ¬ some (s.heapEnd + headerSize) = some (p1 + headerSize + S1 + headerSize)
      intro hc
      rw [Option.some.injEq] at hc
      omega
    · rw [heq]
    · rw [heq]

/-- A reachable arena with two adjacent free 8-byte blocks and plenty of
room left to carve. -/
def c7room : AllocState :=
  myFree 32 (myFree 16 (myAlloc none 8 (myAlloc none 8 (initArena 8)).2).2)

/-- Witness for the amended C7: with the two adjacent free 8-byte blocks
at headers `8` and `24`, `allocate(8 + 8)` does not return either
payload; it carves at `heapEnd` (there is room). -/
theorem C7_no_coalescing_witness :
    (myAlloc none (8 + 8) c7room).1 ≠ some (8 + headerSize) ∧
    (myAlloc none (8 + 8) c7room).1 ≠ some (8 + headerSize + 8 + headerSize) ∧
    ((∃ q, scanLoop c7room.mem c7room.heapEnd (ALIGN (8 + 8)) c7room.heapStart = some q ∧
        q ≠ 8 ∧ q ≠ 8 + headerSize + 8 ∧
        ALIGN (8 + 8) ≤ GET_SIZE (c7room.mem q) ∧
        (myAlloc none (8 + 8) c7room).1 = some (q + headerSize)) ∨
     (scanLoop c7room.mem c7room.heapEnd (ALIGN (8 + 8)) c7room.heapStart = none ∧
       (((myAlloc none (8 + 8) c7room).1 = some (c7room.heapEnd + headerSize) ∧
         (myAlloc none (8 + 8) c7room).2.heapEnd = c7room.heapEnd + headerSize + ALIGN (8 + 8)) ∨
        ((myAlloc none (8 + 8) c7room).1 = none ∧
         (myAlloc none (8 + 8) c7room).2.last_error = ERR_OUT_OF_MEM)))) := by
  have hr : Reachable c7room :=
    Reachable.free 32 (Reachable.free 16
      (Reachable.alloc none 8 (Reachable.alloc none 8
        (Reachable.init (by decide) (by decide)))))
  exact C7_no_coalescing c7room hr none 8 8 8 Reaches.refl (by decide) (by decide)
    (by decide) (by decide) (by decide) (by decide) (by decide) (by decide)

/-! ### C8: scan termination and bound -/

/-- The header addresses read by the first-fit scan, in visiting order. -/
def scanVisits (mem : Nat → Nat) (e a : Nat) : Nat → Nat → List Nat
  | 0, _ => []
  | fuel + 1, p =>
    if p < e then
      if IS_FREE (mem p) && a ≤ GET_SIZE (mem p) then [p]
      else p :: scanVisits mem e a fuel (p + headerSize + GET_SIZE (mem p))
    else []

theorem scanVisits_lt {mem : Nat → Nat} {e a : Nat} :
    ∀ fuel p q, q ∈ scanVisits mem e a fuel p → q < e := by
  intro fuel
  induction fuel with
  | zero =>
    intro p q hq
    simp [scanVisits] at hq
  | succ fuel ih =>
    intro p q hq
    rw [scanVisits] at hq
    by_cases hpe : p < e
    · rw [if_pos hpe] at hq
      by_cases hc : (IS_FREE (mem p) && decide (a ≤ GET_SIZE (mem p))) = true
      · rw [if_pos hc] at hq
        rw [List.mem_singleton] at hq
        omega
      · rw [if_neg hc] at hq
        rcases List.mem_cons.mp hq with hq | hq
        · omega
        · exact ih _ _ hq
    · rw [if_neg hpe] at hq
      simp at hq

theorem scanVisits_head {mem : Nat → Nat} {e a : Nat} :
    ∀ fuel p, 0 < fuel →
      (scanVisits mem e a fuel p).head? = if p < e then some p else none := by
  intro fuel p hfuel
  cases fuel with
  | zero => omega
  | succ fuel =>
    rw [scanVisits]
    by_cases hpe : p < e
    · rw [if_pos hpe, if_pos hpe]
      by_cases hc : (IS_FREE (mem p) && decide (a ≤ GET_SIZE (mem p))) = true
      · rw [if_pos hc]
        rfl
      · rw [if_neg hc]
        rfl
    · rw [if_neg hpe, if_neg hpe]
      rfl

theorem scanVisits_chain {mem : Nat → Nat} {e a : Nat} :
    ∀ fuel p, List.Chain' (fun x y => x < y ∧ y = x + headerSize + GET_SIZE (mem x))
      (scanVisits mem e a fuel p) := by
  intro fuel
  induction fuel with
  | zero =>
    intro p
    simp [scanVisits]
  | succ fuel ih =>
    intro p
    rw [scanVisits]
    by_cases hpe : p < e
    · rw [if_pos hpe]
      by_cases hc : (IS_FREE (mem p) && decide (a ≤ GET_SIZE (mem p))) = true
      · rw [if_pos hc]
        exact List.chain'_singleton p
      · rw [if_neg hc]
        rw [List.chain'_cons']
        refine ⟨?_, ih _⟩
        intro b hb
        cases fuel with
        | zero =>
          simp [scanVisits] at hb
        | succ fuel =>
          rw [scanVisits_head _ _ (by omega)] at hb
          by_cases hb2 : p + headerSize + GET_SIZE (mem p) < e
          · rw [if_pos hb2] at hb
            rw [Option.mem_def, Option.some.injEq] at hb
            subst hb
            have hh : headerSize = 8 := rfl
            omega
          · rw [if_neg hb2] at hb
            simp at hb
    · rw [if_neg hpe]
      simp

/-- C8: for every allocate call on a well-formed arena (every stored
payload size is a positive multiple of the alignment), the first-fit
scan terminates — any fuel beyond `heapEnd - heapStart` gives the same
result as the loop — and the visited cursor starts at `heapStart`,
strictly increases by `headerSize` plus the stored payload size at
every step, and never reads a header at or past `heapEnd`. -/
theorem C8_scan_termination (s : AllocState)
    (_hwf : Chain (fun g => 8 ∣ g ∧ 0 < g) s.mem s.heapEnd s.heapStart)
    (a f : Nat) (hf : s.heapEnd - s.heapStart < f) :
    scanGo s.mem s.heapEnd a f s.heapStart = scanLoop s.mem s.heapEnd a s.heapStart ∧
    (∀ q, q ∈ scanVisits s.mem s.heapEnd a (s.heapEnd - s.heapStart + 1) s.heapStart →
      q < s.heapEnd) ∧
    List.Chain' (fun x y => x < y ∧ y = x + headerSize + GET_SIZE (s.mem x))
      (scanVisits s.mem s.heapEnd a (s.heapEnd - s.heapStart + 1) s.heapStart) ∧
    (scanVisits s.mem s.heapEnd a (s.heapEnd - s.heapStart + 1) s.heapStart).head? =
      (if s.heapStart < s.heapEnd then some s.heapStart else none) :=
  ⟨scanGo_fuel _ _ _ hf (by omega),
   fun q hq => scanVisits_lt _ _ _ hq,
   scanVisits_chain _ _,
   scanVisits_head _ _ (by omega)⟩

/-- A one-block well-formed arena for the C8 witness. -/
def c8state : AllocState := (myAlloc none 4 (initArena 8)).2

/-- Witness for C8 on the one-block arena, request 8, fuel 33. -/
theorem C8_scan_termination_witness :
    scanGo c8state.mem c8state.heapEnd 8 33 c8state.heapStart =
      scanLoop c8state.mem c8state.heapEnd 8 c8state.heapStart ∧
    (∀ q, q ∈ scanVisits c8state.mem c8state.heapEnd 8
        (c8state.heapEnd - c8state.heapStart + 1) c8state.heapStart →
      q < c8state.heapEnd) ∧
    List.Chain' (fun x y => x < y ∧ y = x + headerSize + GET_SIZE (c8state.mem x))
      (scanVisits c8state.mem c8state.heapEnd 8
        (c8state.heapEnd - c8state.heapStart + 1) c8state.heapStart) ∧
    (scanVisits c8state.mem c8state.heapEnd 8
        (c8state.heapEnd - c8state.heapStart + 1) c8state.heapStart).head? =
      (if c8state.heapStart < c8state.heapEnd then some c8state.heapStart else none) := by
  have hchain : Chain (fun g => 8 ∣ g ∧ 0 < g) c8state.mem c8state.heapEnd c8state.heapStart :=
    Chain.step (by decide) (by decide) (by decide) (Chain.done rfl)
  exact C8_scan_termination c8state hchain 8 33 (by decide)

end ImplicitFreeList
